import Mathlib

/-!
Verification of the BMFF-Based Hash assertion subsystem
(`src/sdk/src/assertions/bmff_hash.rs` of the c2pa-rs repository).

The Rust code is shallowly embedded: pure functions become Lean functions,
byte strings become `List Nat`, the external SHA-2 digests become an abstract
`digest` parameter of type `String → Bytes → Bytes` (algorithm name and
message to digest), and the asset reader together with the external box
scanner and streaming hasher become an `AssetModel` oracle record.  Fallible
Rust code returns `RResult`, which distinguishes `Ok`, `Err` and a Rust
panic.
-/

/-- Byte strings (Rust `Vec<u8>` / `ByteBuf`). -/
abbrev Bytes := List Nat

/-- Modelled from the spec: the error enum of the crate (`error.rs` is not
part of the provided sources).  Constructors follow the error kinds named in
the specification: `BadParam`, `InvalidAsset`, `HashMismatch`,
`UnsupportedType`, `NotImplemented`, `Io`, `AssertionEncoding`, `NotFound`,
and the `RemoteNotSupported` kind named in the verifier section of the
specification. -/
inductive Error where
  | BadParam (msg : String)
  | InvalidAsset (msg : String)
  | HashMismatch (msg : String)
  | UnsupportedType
  | NotImplemented
  | Io
  | AssertionEncoding
  | NotFound
  | RemoteNotSupported
  deriving DecidableEq, Repr

/-- Result of running a piece of Rust code: `Ok`, `Err`, or a Rust panic
(such as `Vec::split_off` called with an out-of-bounds index). -/
inductive RResult (α : Type) where
  | ok (a : α)
  | err (e : Error)
  | panic
  deriving DecidableEq, Repr

/-- Modelled from the spec: `HashRange { offset, length }` produced by the
exclusion resolver (`hash_utils.rs` is not part of the provided sources). -/
structure HashRange where
  offset : Nat
  length : Nat
  deriving DecidableEq, Repr

/-- Box record emitted by the box scanner (`BoxInfoLite`); only the fields
used by `bmff_hash.rs` are kept: path, absolute offset and total size. -/
structure BoxInfoLite where
  path : String
  offset : Nat
  size : Nat
  deriving DecidableEq, Repr

/-- `DataMap { offset, value }` of `bmff_hash.rs`. -/
structure DataMap where
  offset : Nat
  value : Bytes
  deriving DecidableEq, Repr

/-- `SubsetMap { offset, length }` of `bmff_hash.rs`. -/
structure SubsetMap where
  offset : Nat
  length : Nat
  deriving DecidableEq, Repr

/-- `ExclusionsMap` of `bmff_hash.rs`: an exclusion rule. -/
structure ExclusionsMap where
  xpath : String
  length : Option Nat
  data : Option (List DataMap)
  subset : Option (List SubsetMap)
  version : Option Nat
  flags : Option Bytes
  exact : Option Bool
  deriving DecidableEq, Repr

/-- `MerkleMap` of `bmff_hash.rs`; `hashes` is the stored Merkle row
(`VecByteBuf` in the source). -/
structure MerkleMap where
  unique_id : Nat
  local_id : Nat
  count : Nat
  alg : Option String
  init_hash : Option Bytes
  hashes : List Bytes
  deriving DecidableEq, Repr

/-- `BmffMerkleMap` of `bmff_hash.rs`: the payload of a per-fragment C2PA
UUID box, carrying the leaf location and the sibling proof. -/
structure BmffMerkleMap where
  unique_id : Nat
  local_id : Nat
  location : Nat
  hashes : Option (List Bytes)
  deriving DecidableEq, Repr

/-- `BmffHash` of `bmff_hash.rs`.  `path` is a `PathBuf` in the source,
modelled as a string; `url` is a `UriT`, modelled as a string.  The three
`serde(skip)` fields `path`, `bmff_version` and `merkle_uuid_boxes` are kept
because the derived Rust `PartialEq` compares them. -/
structure BmffHash where
  exclusions : List ExclusionsMap
  alg : Option String
  hash : Option Bytes
  merkle : Option (List MerkleMap)
  name : Option String
  url : Option String
  path : String
  bmff_version : Nat
  merkle_uuid_boxes : Option (List BmffMerkleMap)
  deriving DecidableEq, Repr

/-- Modelled from the spec: `vec_compare` of `hash_utils.rs` (not in the
provided sources) decides equality of two byte strings. -/
def vec_compare (a b : Bytes) : Bool :=
  a == b

/-- Modelled from the spec: `concat_and_hash alg a (Some b)` of
`hash_utils.rs` digests the concatenation `a || b` (spec §4.4, internal node
`H(alg, left || right)`); the digest itself is the abstract parameter. -/
def concat_and_hash (digest : String → Bytes → Bytes) (alg : String)
    (a b : Bytes) : Bytes :=
  digest alg (a ++ b)

/-- Fuel-driven worker for `to_layout` (structural recursion keeps the
definition kernel-computable). -/
def to_layout_fuel : Nat → Nat → List Nat
  | 0, n => [n]
  | fuel + 1, n => if n ≤ 1 then [n] else n :: to_layout_fuel fuel ((n + 1) / 2)

/-- Modelled from the spec: `C2PAMerkleTree::to_layout` (`merkle.rs` is not
in the provided sources) lists the Merkle layer sizes bottom-up: each layer
pairs adjacent nodes and an unpaired trailing node bubbles, so a layer of
size `n` is followed by one of size `⌈n/2⌉`, down to the root layer of
size 1. -/
def to_layout (n : Nat) : List Nat :=
  to_layout_fuel n n

/-- `MerkleMap::hash_check`: compare a candidate hash against the stored row
at an index; an out-of-range index fails. -/
def MerkleMap.hash_check (mm : MerkleMap) (indx : Nat) (merkle_hash : Bytes) : Bool :=
  match mm.hashes[indx]? with
  | some h => vec_compare h merkle_hash
  | none => false

/-- The proof-playback loop of `MerkleMap::check_merkle_tree`, walking the
layer sizes.  State: remaining layers, current index, current hash, current
proof read position.  `none` models the early `return false` when the proof
runs out of entries. -/
def check_merkle_loop (digest : String → Bytes → Bytes) (alg : String)
    (stored_len : Nat) (proof : List Bytes) :
    List Nat → Nat → Bytes → Nat → Option (Nat × Bytes)
  | [], index, hash, _ => some (index, hash)
  | layer :: rest, index, hash, proof_index =>
    if layer = stored_len then
      some (index, hash)
    else if index % 2 = 1 then
      if index - 1 < layer then
        match proof[proof_index]? with
        | some proof_hash =>
          check_merkle_loop digest alg stored_len proof rest (index / 2)
            (concat_and_hash digest alg proof_hash hash) (proof_index + 1)
        | none => none
      else
        check_merkle_loop digest alg stored_len proof rest (index / 2) hash proof_index
    else if index + 1 < layer then
      match proof[proof_index]? with
      | some proof_hash =>
        check_merkle_loop digest alg stored_len proof rest (index / 2)
          (concat_and_hash digest alg hash proof_hash) (proof_index + 1)
      | none => none
    else
      check_merkle_loop digest alg stored_len proof rest (index / 2) hash proof_index

/-- `MerkleMap::check_merkle_tree`: play a sibling proof for a leaf hash at
`location` upwards through the layers of a tree with `count` leaves, stopping
at the layer whose size equals the stored row length, then compare against
the stored row. -/
def MerkleMap.check_merkle_tree (digest : String → Bytes → Bytes)
    (mm : MerkleMap) (alg : String) (hash : Bytes) (location : Nat)
    (proof : Option (List Bytes)) : Bool :=
  match proof with
  | none => mm.hash_check location hash
  | some hashes =>
    match check_merkle_loop digest alg mm.hashes.length hashes
        (to_layout mm.count) location hash 0 with
    | some (index, h) => mm.hash_check index h
    | none => false

/-- Oracle model of one opened asset stream together with the external
collaborators consumed by `bmff_hash.rs`: the box scanner
(`read_bmff_c2pa_boxes` of `bmff_io.rs`), the exclusion resolver
(`bmff_to_jumbf_exclusions`) and the streaming hasher
(`hash_stream_by_alg` / `hash_asset_by_alg`), none of which are in the
provided sources.  `hash_by_alg alg ranges` stands for the digest of the
stream minus the excluded ranges; `resolve_exclusions rules v2` stands for
the sorted flat range list produced from the rules; `timed_phase` stands for
the timed-media sample hashing that depends on the external `mp4` crate
(everything in `verify_stream_hash` after `split_bmff_merkle_map`). -/
structure AssetModel where
  size : Nat
  box_infos : List BoxInfoLite
  bmff_merkle : List BmffMerkleMap
  resolve_exclusions : List ExclusionsMap → Bool → List HashRange
  hash_by_alg : String → List HashRange → Bytes
  timed_phase : List (Nat × List BmffMerkleMap) → RResult Unit

/-- The `bmff_version > 1` flag threaded to the exclusion resolver. -/
def BmffHash.is_v2 (bh : BmffHash) : Bool :=
  decide (1 < bh.bmff_version)

/-- Modelled from the spec: `verify_stream_by_alg` of `hash_utils.rs`
recomputes the digest of the stream minus the exclusions and compares it to
the expected hash. -/
def verify_stream_by_alg (asset : AssetModel) (alg : String) (expected : Bytes)
    (exclusions : List HashRange) : Bool :=
  vec_compare (asset.hash_by_alg alg exclusions) expected

/-- The algorithm-selection match that opens `verify_stream_hash` and
`verify_stream_segment`: the assertion algorithm wins, then the caller hint,
then `"sha256"`. -/
def curr_alg_of (assertion_alg : Option String) (hint : Option String) : String :=
  match assertion_alg with
  | some a => a
  | none =>
    match hint with
    | some a => a
    | none => "sha256"

/-- `BmffHash::is_remote_hash`. -/
def BmffHash.is_remote_hash (bh : BmffHash) : Bool :=
  bh.url.isSome

/-- `BmffHash::hash_from_asset`: the generation-time digest of a whole
asset (used by `gen_hash` and `regen_hash`). -/
def BmffHash.hash_from_asset (bh : BmffHash) (asset : AssetModel) : RResult Bytes :=
  if bh.is_remote_hash then
    .err (.BadParam "asset hash is remote, not yet supported")
  else
    let alg := match bh.alg with
      | some a => a
      | none => "sha256"
    let exclusions := asset.resolve_exclusions bh.exclusions bh.is_v2
    let hash := asset.hash_by_alg alg exclusions
    if hash.isEmpty then
      .err (.BadParam "could not generate data hash")
    else
      .ok hash

/-- `BmffHash::update_mpd_hash`: recompute the init-segment digest and store
it in the first `MerkleMap`.  The pair returns the call result together with
the (possibly updated) assertion, making the mutation explicit. -/
def BmffHash.update_mpd_hash (bh : BmffHash) (asset : AssetModel) :
    RResult Unit × BmffHash :=
  match bh.merkle with
  | some mm =>
    match mm with
    | [] => (.err .NotFound, bh)
    | mpd_mm :: rest =>
      let curr_alg := match mpd_mm.alg with
        | some a => a
        | none =>
          match bh.alg with
          | some a => a
          | none => "sha256"
      let exclusions := asset.resolve_exclusions bh.exclusions bh.is_v2
      let hash := asset.hash_by_alg curr_alg exclusions
      (.ok (), { bh with merkle := some ({ mpd_mm with init_hash := some hash } :: rest) })
  | none => (.err (.BadParam "expected MPD Merkle object"), bh)

/-- The loop body of `BmffHash::split_bmff_merkle_map`: repeatedly
`Vec::split_off` the recovered UUID-box list at each `MerkleMap.count`.
`split_off` panics when the index exceeds the vector length, which the model
makes explicit; the subsequent length test of the source (kept verbatim) can
then never fail.  Leftover entries after the last `MerkleMap` are dropped. -/
def split_off_run : List MerkleMap → List BmffMerkleMap →
    RResult (List (Nat × List BmffMerkleMap))
  | [], _ => .ok []
  | m :: ms, current =>
    if m.count ≤ current.length then
      let rest := current.drop m.count
      let kept := current.take m.count
      if kept.length = m.count then
        match split_off_run ms rest with
        | .ok output => .ok ((m.local_id, kept) :: output)
        | r => r
      else
        .err (.HashMismatch "MerkleMap count incorrect")
    else
      .panic

/-- `BmffHash::split_bmff_merkle_map`: break the contiguous recovered
`BmffMerkleMap` list into per-`MerkleMap` groups keyed by `local_id` (the
`HashMap` is modelled as an association list in insertion order). -/
def BmffHash.split_bmff_merkle_map (bh : BmffHash)
    (bmff_merkle_map : List BmffMerkleMap) :
    RResult (List (Nat × List BmffMerkleMap)) :=
  match bh.merkle with
  | some mm => split_off_run mm bmff_merkle_map
  | none => .ok [(0, bmff_merkle_map)]

/-- Worker for `split_fragment_boxes`: accumulate the current chunk, cutting
at each later `moof` box. -/
def split_fragment_boxes_aux : List BoxInfoLite → List BoxInfoLite →
    List (List BoxInfoLite)
  | [], box_list => [box_list]
  | b :: rest, box_list =>
    if b.path = "moof" then
      box_list :: split_fragment_boxes_aux rest [b]
    else
      split_fragment_boxes_aux rest (box_list ++ [b])

/-- `BmffHash::split_fragment_boxes`: cluster the scanned boxes into
per-`moof` fragment chunks, starting at the first `moof`. -/
def split_fragment_boxes (boxes : List BoxInfoLite) : List (List BoxInfoLite) :=
  match boxes.dropWhile (fun b => ¬ b.path = "moof") with
  | [] => []
  | first :: rest => split_fragment_boxes_aux rest [first]

/-- The per-`MerkleMap` init-segment loop of `verify_stream_hash` (the first
loop over `mm_vec`): resolve the algorithm, and when an `init_hash` is
present verify it against the file with everything from the first `moof`
onward additionally excluded — failing when the asset has no `moof`. -/
def check_init_segments (bh : BmffHash) (asset : AssetModel)
    (exclusions : List HashRange) (first_moof : Option BoxInfoLite) :
    List MerkleMap → RResult Unit
  | [] => .ok ()
  | mm :: rest =>
    match (match mm.alg with | some a => some a | none => bh.alg) with
    | none => .err (.HashMismatch "no algorithm found")
    | some alg =>
      match mm.init_hash with
      | none => check_init_segments bh asset exclusions first_moof rest
      | some init_hash =>
        match first_moof with
        | some moof_box =>
          let moof_exclusion : HashRange :=
            ⟨moof_box.offset, asset.size - moof_box.offset⟩
          let mm_exclusions := exclusions ++ [moof_exclusion]
          if verify_stream_by_alg asset alg init_hash mm_exclusions then
            check_init_segments bh asset exclusions first_moof rest
          else
            .err (.HashMismatch "BMFF file level hash mismatch")
        | none =>
          .err (.HashMismatch "BMFF inithash must not be present for non-fragmented media")

/-- The per-chunk loop of the fragmented single-file branch of
`verify_stream_hash`: hash each `moof` chunk (everything before and after it
additionally excluded) and replay its Merkle proof.  Indexing
`bmff_merkle[index]` out of bounds is a Rust panic. -/
def check_fragments (digest : String → Bytes → Bytes) (alg : String)
    (asset : AssetModel) (exclusions : List HashRange) (mm : MerkleMap)
    (bmff_merkle : List BmffMerkleMap) :
    Nat → List (List BoxInfoLite) → RResult Unit
  | _, [] => .ok ()
  | index, boxes :: rest =>
    let before_box_len := match boxes.head? with
      | some first => first.offset
      | none => 0
    let after_box_start := match boxes.getLast? with
      | some last => last.offset + last.size
      | none => 0
    let curr_exclusions := exclusions ++
      [⟨0, before_box_len⟩, ⟨after_box_start, asset.size - after_box_start⟩]
    let hash := asset.hash_by_alg alg curr_exclusions
    match bmff_merkle[index]? with
    | none => .panic
    | some bmff_mm =>
      if mm.check_merkle_tree digest alg hash bmff_mm.location bmff_mm.hashes then
        check_fragments digest alg asset exclusions mm bmff_merkle (index + 1) rest
      else
        .err (.HashMismatch "Fragment not valid")

/-- The per-`MerkleMap` loop of the fragmented single-file branch of
`verify_stream_hash`: require the 1-1 mapping between `moof` chunks,
recovered UUID boxes and `count`, then check every chunk. -/
def fragmented_loop (digest : String → Bytes → Bytes) (bh : BmffHash)
    (asset : AssetModel) (exclusions : List HashRange) :
    List MerkleMap → RResult Unit
  | [] => .ok ()
  | mm :: rest =>
    match (match mm.alg with | some a => some a | none => bh.alg) with
    | none => .err (.HashMismatch "no algorithm found")
    | some alg =>
      let moof_chunks := split_fragment_boxes asset.box_infos
      if ¬ moof_chunks.length = mm.count ∨ ¬ asset.bmff_merkle.length = mm.count then
        .err (.HashMismatch "Incorrect number of fragments hashes")
      else
        match check_fragments digest alg asset exclusions mm asset.bmff_merkle 0 moof_chunks with
        | .ok _ => fragmented_loop digest bh asset exclusions rest
        | r => r

/-- `BmffHash::verify_stream_hash`: verify a single-file BMFF asset against
the assertion, dispatching on remote url, file-level hash, and the Merkle
shapes (fragmented / timed media / iloc). -/
def BmffHash.verify_stream_hash (bh : BmffHash)
    (digest : String → Bytes → Bytes) (asset : AssetModel)
    (alg : Option String) : RResult Unit :=
  if bh.is_remote_hash then
    .err (.BadParam "asset hash is remote, not yet supported")
  else
    let curr_alg := curr_alg_of bh.alg alg
    let exclusions := asset.resolve_exclusions bh.exclusions bh.is_v2
    let file_level : RResult Unit :=
      match bh.hash with
      | some h =>
        if verify_stream_by_alg asset curr_alg h exclusions then .ok ()
        else .err (.HashMismatch "BMFF file level hash mismatch")
      | none => .ok ()
    match file_level with
    | .ok _ =>
      match bh.merkle with
      | none => .ok ()
      | some mm_vec =>
        let first_moof := asset.box_infos.find? (fun b => b.path == "moof")
        match check_init_segments bh asset exclusions first_moof mm_vec with
        | .ok _ =>
          if first_moof.isSome then
            fragmented_loop digest bh asset exclusions mm_vec
          else if asset.box_infos.any (fun b => b.path == "moov") then
            match (if asset.bmff_merkle.isEmpty then .ok []
                   else bh.split_bmff_merkle_map asset.bmff_merkle) with
            | .ok groups => asset.timed_phase groups
            | .err e => .err e
            | .panic => .panic
          else
            .err (.HashMismatch "Merkle iloc not yet supported")
        | r => r
    | r => r

/-- The init-hash loop of `verify_stream_segment`: every `MerkleMap` must
carry an `init_hash` equal to the digest of the init segment minus the
exclusions, computed with the call-level algorithm. -/
def segment_init_loop (asset : AssetModel) (curr_alg : String)
    (exclusions : List HashRange) : List MerkleMap → RResult Unit
  | [] => .ok ()
  | mm :: rest =>
    match mm.init_hash with
    | some init_hash =>
      if verify_stream_by_alg asset curr_alg init_hash exclusions then
        segment_init_loop asset curr_alg exclusions rest
      else
        .err (.HashMismatch "BMFF inithash mismatch")
    | none => .err (.HashMismatch "fragmented MP4 must have initHash")

/-- The fragment loop of `verify_stream_segment`: match each recovered
`BmffMerkleMap` to its `MerkleMap` by `(unique_id, local_id)`, hash the
fragment minus its exclusions, replay the proof. -/
def segment_fragment_loop (digest : String → Bytes → Bytes) (bh : BmffHash)
    (curr_alg : String) (frag : AssetModel) (mm_vec : List MerkleMap) :
    List BmffMerkleMap → RResult Unit
  | [] => .ok ()
  | bmff_mm :: rest =>
    match mm_vec.find? (fun mm =>
        mm.unique_id == bmff_mm.unique_id && mm.local_id == bmff_mm.local_id) with
    | some mm =>
      let alg := match mm.alg with
        | some a => a
        | none => curr_alg
      let fragment_exclusions := frag.resolve_exclusions bh.exclusions bh.is_v2
      let hash := frag.hash_by_alg alg fragment_exclusions
      if mm.check_merkle_tree digest alg hash bmff_mm.location bmff_mm.hashes then
        segment_fragment_loop digest bh curr_alg frag mm_vec rest
      else
        .err (.HashMismatch "Fragment not valid")
    | none => .err (.HashMismatch "Fragment had no MerkleMap")

/-- `BmffHash::verify_stream_segment`: verify a multi-file fragmented asset,
checking every `MerkleMap.init_hash` against the init segment and, when a
fragment is supplied, replaying the Merkle proof of every recovered
`BmffMerkleMap` of that fragment. -/
def BmffHash.verify_stream_segment (bh : BmffHash)
    (digest : String → Bytes → Bytes) (init_stream : AssetModel)
    (fragment_stream : Option AssetModel) (alg : Option String) :
    RResult Unit :=
  let curr_alg := curr_alg_of bh.alg alg
  if bh.hash.isSome then
    .err (.HashMismatch "Hash value should not be present for a fragmented BMFF asset")
  else
    match bh.merkle with
    | none =>
      .err (.HashMismatch "Merkle value must be present for a fragmented BMFF asset")
    | some mm_vec =>
      let exclusions := init_stream.resolve_exclusions bh.exclusions bh.is_v2
      match segment_init_loop init_stream curr_alg exclusions mm_vec with
      | .ok _ =>
        match fragment_stream with
        | none => .ok ()
        | some frag =>
          if frag.bmff_merkle.isEmpty then
            .err (.HashMismatch "Fragment had no MerkleMap")
          else
            segment_fragment_loop digest bh curr_alg frag mm_vec frag.bmff_merkle
      | r => r

/-- Modelled from the spec: one Merkle combination step of
`C2PAMerkleTree` (`merkle.rs` is not in the provided sources): adjacent
nodes are paired into `H(alg, left || right)`; an unpaired trailing node
bubbles up unchanged. -/
def next_layer (digest : String → Bytes → Bytes) (alg : String) :
    List Bytes → List Bytes
  | [] => []
  | [x] => [x]
  | x :: y :: rest => concat_and_hash digest alg x y :: next_layer digest alg rest

/-- Fuel-driven worker building the Merkle layers bottom-up (structural
recursion keeps the definition kernel-computable). -/
def build_layers_fuel (digest : String → Bytes → Bytes) (alg : String) :
    Nat → List Bytes → List (List Bytes)
  | 0, layer => [layer]
  | fuel + 1, layer =>
    if layer.length ≤ 1 then [layer]
    else layer :: build_layers_fuel digest alg fuel (next_layer digest alg layer)

/-- Modelled from the spec: the layer list of `C2PAMerkleTree::from_leaves`,
from the leaf layer up to the single-node root layer. -/
def build_layers (digest : String → Bytes → Bytes) (alg : String)
    (leaves : List Bytes) : List (List Bytes) :=
  build_layers_fuel digest alg leaves.length leaves

/-- Modelled from the spec: `C2PAMerkleTree` (`merkle.rs` is not in the
provided sources), holding the layers of the tree. -/
structure C2PAMerkleTree where
  layers : List (List Bytes)

/-- Modelled from the spec: `C2PAMerkleTree::from_leaves` builds the layers
bottom-up (the third source argument selects leaf pre-hashing and is `false`
at the call site modelled here). -/
def C2PAMerkleTree.from_leaves (digest : String → Bytes → Bytes)
    (alg : String) (leaves : List Bytes) : C2PAMerkleTree :=
  ⟨build_layers digest alg leaves⟩

/-- The assertion-assembly tail of `BmffHash::add_merkle_for_mpd` (the code
after the per-fragment leaf hashes exist; directory enumeration, placeholder
insertion and back-patching are file I/O abstracted away by taking the final
`leaves` as input).  Chooses the stored row `layers[min(4, root_layer)]`,
builds the single `MerkleMap` with an algorithm-sized zero `init_hash`
placeholder, and rejects unknown algorithms with `UnsupportedType`. -/
def BmffHash.add_merkle_for_mpd (bh : BmffHash)
    (digest : String → Bytes → Bytes) (alg : String) (leaves : List Bytes)
    (local_id : Nat) (unique_id : Option Nat) : RResult BmffHash :=
  let max_proofs := 4
  let uid := match unique_id with
    | some id => id
    | none => local_id
  let m_tree := C2PAMerkleTree.from_leaves digest alg leaves
  let tree_row := min max_proofs (m_tree.layers.length - 1)
  match m_tree.layers[tree_row]? with
  | none => .panic
  | some merkle_row =>
    match (match alg with
      | "sha256" => some (List.replicate 32 0)
      | "sha384" => some (List.replicate 48 0)
      | "sha512" => some (List.replicate 64 0)
      | _ => none) with
    | none => .err .UnsupportedType
    | some zero_hash =>
      .ok { bh with merkle := some [{
        unique_id := uid,
        local_id := local_id,
        count := leaves.length,
        alg := some alg,
        init_hash := some zero_hash,
        hashes := merkle_row }] }

/-- Comparison of a candidate hash against a stored Merkle row at an index,
as the specification words it (`stored_row[index]`; an out-of-range index
fails). -/
def stored_row_check (stored : List Bytes) (index : Nat) (hash : Bytes) : Bool :=
  match stored[index]? with
  | some h => vec_compare h hash
  | none => false

/-- The Merkle proof playback exactly as the specification sentence words
it: walk the layer sizes upward; on an odd index consume a proof entry on
the left, on an even index with a right sibling consume one on the right, a
lone trailing node consumes nothing; the index halves each layer; stop at
the layer whose size equals the stored row length and compare against
`stored_row[index]`.  A proof that runs out of entries fails.  With
`strict = true`, leftover unconsumed entries also fail (the reading of the
claim); with `strict = false` they are ignored. -/
def merkle_walk (digest : String → Bytes → Bytes) (alg : String)
    (stored : List Bytes) (strict : Bool) :
    List Nat → Nat → Bytes → List Bytes → Bool
  | [], index, hash, rem =>
    (!strict || rem.isEmpty) && stored_row_check stored index hash
  | layer :: rest, index, hash, rem =>
    if layer = stored.length then
      (!strict || rem.isEmpty) && stored_row_check stored index hash
    else if index % 2 = 1 then
      match rem with
      | [] => false
      | p :: ps =>
        merkle_walk digest alg stored strict rest (index / 2)
          (concat_and_hash digest alg p hash) ps
    else if index + 1 < layer then
      match rem with
      | [] => false
      | p :: ps =>
        merkle_walk digest alg stored strict rest (index / 2)
          (concat_and_hash digest alg hash p) ps
    else
      merkle_walk digest alg stored strict rest (index / 2) hash rem

/-- Modelled from the spec: the CBOR data items used by the wire format of
the assertion (serde_cbor is an external crate; the spec fixes the wire
format in its external-interfaces section).  Struct values are maps with
text keys. -/
inductive Cbor where
  | uint (n : Nat)
  | bytes (b : Bytes)
  | text (s : String)
  | arr (items : List Cbor)
  | map (entries : List (String × Cbor))
  | boolean (b : Bool)
  | null

/-- Key-value entry emitted only when the option is present
(`skip_serializing_if = "Option::is_none"`). -/
def opt_entry {α : Type} (key : String) (f : α → Cbor) : Option α → List (String × Cbor)
  | none => []
  | some v => [(key, f v)]

/-- Serialization of a plain optional field (no skip attribute): `None`
serializes as CBOR null. -/
def encode_opt {α : Type} (f : α → Cbor) : Option α → Cbor
  | none => .null
  | some v => f v

/-- Serde encoding of `DataMap` (`value` is `serde_bytes`). -/
def encode_data_map (d : DataMap) : Cbor :=
  .map [("offset", .uint d.offset), ("value", .bytes d.value)]

/-- Serde encoding of `SubsetMap`. -/
def encode_subset_map (s : SubsetMap) : Cbor :=
  .map [("offset", .uint s.offset), ("length", .uint s.length)]

/-- Serde encoding of `ExclusionsMap`: every field is emitted, absent
options as null (the struct carries no skip attributes). -/
def encode_exclusions_map (e : ExclusionsMap) : Cbor :=
  .map [("xpath", .text e.xpath),
        ("length", encode_opt .uint e.length),
        ("data", encode_opt (fun l => .arr (l.map encode_data_map)) e.data),
        ("subset", encode_opt (fun l => .arr (l.map encode_subset_map)) e.subset),
        ("version", encode_opt .uint e.version),
        ("flags", encode_opt .bytes e.flags),
        ("exact", encode_opt .boolean e.exact)]

/-- Serde encoding of `MerkleMap`: renamed keys `uniqueId`, `localId`,
`initHash`; `alg` and `initHash` are omitted when absent; `hashes` is the
`VecByteBuf` sequence. -/
def encode_merkle_map (m : MerkleMap) : Cbor :=
  .map ([("uniqueId", .uint m.unique_id), ("localId", .uint m.local_id),
         ("count", .uint m.count)]
        ++ opt_entry "alg" .text m.alg
        ++ opt_entry "initHash" .bytes m.init_hash
        ++ [("hashes", .arr (m.hashes.map Cbor.bytes))])

/-- Serde encoding of `BmffHash`: optional fields are omitted when absent;
`url` carries `skip_serializing` and is never emitted; `path`,
`bmff_version` and `merkle_uuid_boxes` carry `serde(skip)`. -/
def encode_bmff_hash (x : BmffHash) : Cbor :=
  .map ([("exclusions", .arr (x.exclusions.map encode_exclusions_map))]
        ++ opt_entry "alg" .text x.alg
        ++ opt_entry "hash" .bytes x.hash
        ++ opt_entry "merkle" (fun l => .arr (l.map encode_merkle_map)) x.merkle
        ++ opt_entry "name" .text x.name)

/-- First-occurrence key lookup in a CBOR map. -/
def cbor_lookup : List (String × Cbor) → String → Option Cbor
  | [], _ => none
  | (k, v) :: rest, key => if k = key then some v else cbor_lookup rest key

/-- Expect an unsigned integer item. -/
def as_uint : Cbor → Option Nat
  | .uint n => some n
  | _ => none

/-- Expect a byte-string item. -/
def as_bytes : Cbor → Option Bytes
  | .bytes b => some b
  | _ => none

/-- Expect a text item. -/
def as_text : Cbor → Option String
  | .text s => some s
  | _ => none

/-- Expect a boolean item. -/
def as_boolean : Cbor → Option Bool
  | .boolean b => some b
  | _ => none

/-- Decode every element of a CBOR array. -/
def decode_each {α : Type} (f : Cbor → Option α) : List Cbor → Option (List α)
  | [] => some []
  | c :: rest =>
    match f c with
    | none => none
    | some a =>
      match decode_each f rest with
      | none => none
      | some l => some (a :: l)

/-- Expect an array item and decode its elements. -/
def decode_list {α : Type} (f : Cbor → Option α) : Cbor → Option (List α)
  | .arr items => decode_each f items
  | _ => none

/-- Serde decoding of a required struct field: missing is an error. -/
def dec_req_field {α : Type} (entries : List (String × Cbor)) (key : String)
    (f : Cbor → Option α) : Option α :=
  match cbor_lookup entries key with
  | none => none
  | some v => f v

/-- Serde decoding of an `Option` struct field: a missing key and an
explicit null both decode to `None`. -/
def dec_opt_field {α : Type} (entries : List (String × Cbor)) (key : String)
    (f : Cbor → Option α) : Option (Option α) :=
  match cbor_lookup entries key with
  | none => some none
  | some .null => some none
  | some v =>
    match f v with
    | none => none
    | some a => some (some a)

/-- Serde decoding of `DataMap`. -/
def decode_data_map : Cbor → Option DataMap
  | .map es => do
    let offset ← dec_req_field es "offset" as_uint
    let value ← dec_req_field es "value" as_bytes
    pure ⟨offset, value⟩
  | _ => none

/-- Serde decoding of `SubsetMap`. -/
def decode_subset_map : Cbor → Option SubsetMap
  | .map es => do
    let offset ← dec_req_field es "offset" as_uint
    let length ← dec_req_field es "length" as_uint
    pure ⟨offset, length⟩
  | _ => none

/-- Serde decoding of `ExclusionsMap`. -/
def decode_exclusions_map : Cbor → Option ExclusionsMap
  | .map es => do
    let xpath ← dec_req_field es "xpath" as_text
    let length ← dec_opt_field es "length" as_uint
    let data ← dec_opt_field es "data" (decode_list decode_data_map)
    let subset ← dec_opt_field es "subset" (decode_list decode_subset_map)
    let version ← dec_opt_field es "version" as_uint
    let flags ← dec_opt_field es "flags" as_bytes
    let exact ← dec_opt_field es "exact" as_boolean
    pure ⟨xpath, length, data, subset, version, flags, exact⟩
  | _ => none

/-- Serde decoding of `MerkleMap`. -/
def decode_merkle_map : Cbor → Option MerkleMap
  | .map es => do
    let unique_id ← dec_req_field es "uniqueId" as_uint
    let local_id ← dec_req_field es "localId" as_uint
    let count ← dec_req_field es "count" as_uint
    let alg ← dec_opt_field es "alg" as_text
    let init_hash ← dec_opt_field es "initHash" as_bytes
    let hashes ← dec_req_field es "hashes" (decode_list as_bytes)
    pure ⟨unique_id, local_id, count, alg, init_hash, hashes⟩
  | _ => none

/-- Serde decoding of `BmffHash`.  The `serde(skip)` fields come back as
their Rust defaults (empty path, version 0, no cached UUID boxes); the
`url` field is looked up but the encoder never emits it. -/
def decode_bmff_hash : Cbor → Option BmffHash
  | .map es => do
    let exclusions ← dec_req_field es "exclusions" (decode_list decode_exclusions_map)
    let alg ← dec_opt_field es "alg" as_text
    let hash ← dec_opt_field es "hash" as_bytes
    let merkle ← dec_opt_field es "merkle" (decode_list decode_merkle_map)
    let name ← dec_opt_field es "name" as_text
    let url ← dec_opt_field es "url" as_text
    pure ⟨exclusions, alg, hash, merkle, name, url, "", 0, none⟩
  | _ => none

/-- The value actually reconstructed by decoding an encoding: the `url` is
dropped (its serialization is skipped) and the three `serde(skip)` fields
revert to their defaults. -/
def BmffHash.normalize (x : BmffHash) : BmffHash :=
  { x with url := none, path := "", bmff_version := 0, merkle_uuid_boxes := none }

/-- Concrete digest stand-in for evaluating the model on small inputs: the
digest of a message is the message itself. -/
def digest0 : String → Bytes → Bytes :=
  fun _ b => b

/-- Concrete timed-media asset: a `moov` box (no `moof`), and exactly one
recovered C2PA Merkle UUID box. -/
def asset_timed : AssetModel where
  size := 100
  box_infos := [⟨"ftyp", 0, 16⟩, ⟨"moov", 16, 60⟩]
  bmff_merkle := [⟨1, 1, 0, none⟩]
  resolve_exclusions := fun _ _ => []
  hash_by_alg := fun _ _ => [7]
  timed_phase := fun _ => .ok ()

/-- Concrete assertion whose single `MerkleMap` announces two leaves
(`count = 2`) while `asset_timed` carries only one UUID box. -/
def bh_timed : BmffHash where
  exclusions := []
  alg := some "sha256"
  hash := none
  merkle := some [⟨1, 1, 2, some "sha256", none, [[7]]⟩]
  name := none
  url := none
  path := ""
  bmff_version := 2
  merkle_uuid_boxes := none

/-- Concrete assertion with no url, hash or merkle field. -/
def bh_plain : BmffHash :=
  ⟨[], none, none, none, none, none, "", 2, none⟩

/-- Concrete remote assertion (`url` present). -/
def bh_remote : BmffHash :=
  ⟨[], none, none, none, none, some "http://remote", "", 2, none⟩

/-- Concrete assertion carrying only a file-level hash. -/
def bh_filehash : BmffHash :=
  ⟨[], some "sha256", some [7], none, none, none, "", 2, none⟩

/-- Concrete assertion with a single `MerkleMap` whose `init_hash` matches
the digest `[7]` served by `asset_timed`. -/
def bh_init7 : BmffHash :=
  ⟨[], some "sha256", none, some [⟨1, 0, 1, none, some [7], [[7]]⟩], none,
    none, "", 2, none⟩

/-- Concrete assertion with a single `MerkleMap` whose `init_hash` does not
match the `asset_timed` digest. -/
def bh_initmoof : BmffHash :=
  ⟨[], some "sha256", none, some [⟨1, 0, 1, some "sha256", some [9], [[1]]⟩],
    none, none, "", 2, none⟩

/-- Concrete assertion whose merkle vector is present but empty. -/
def bh_empty_merkle : BmffHash :=
  ⟨[], some "sha256", none, some [], none, none, "", 2, none⟩

/-- Element-wise decoding inverts element-wise encoding. -/
theorem decode_each_of {α : Type} (f : Cbor → Option α) (enc : α → Cbor)
    (h : ∀ x, f (enc x) = some x) :
    ∀ l : List α, decode_each f (l.map enc) = some l := by
  intro l
  induction l with
  | nil => simp [decode_each]
  | cons x rest ih => simp [decode_each, h, ih]

/-- Decoding inverts encoding for `DataMap`. -/
theorem decode_encode_data_map (d : DataMap) :
    decode_data_map (encode_data_map d) = some d := by
  obtain ⟨o, v⟩ := d
  simp [decode_data_map, encode_data_map, dec_req_field, cbor_lookup, as_uint,
    as_bytes]

/-- Decoding inverts encoding for `SubsetMap`. -/
theorem decode_encode_subset_map (s : SubsetMap) :
    decode_subset_map (encode_subset_map s) = some s := by
  obtain ⟨o, l⟩ := s
  simp [decode_subset_map, encode_subset_map, dec_req_field, cbor_lookup,
    as_uint]

/-- Decoding inverts encoding for `ExclusionsMap`. -/
theorem decode_encode_exclusions_map (e : ExclusionsMap) :
    decode_exclusions_map (encode_exclusions_map e) = some e := by
  obtain ⟨xpath, length, data, subset, version, flags, exact⟩ := e
  cases length <;> cases data <;> cases subset <;> cases version <;>
    cases flags <;> cases exact <;>
    simp [decode_exclusions_map, encode_exclusions_map, dec_req_field,
      dec_opt_field, cbor_lookup, as_text, as_uint, as_bytes, as_boolean,
      encode_opt, decode_list,
      decode_each_of decode_data_map encode_data_map decode_encode_data_map,
      decode_each_of decode_subset_map encode_subset_map decode_encode_subset_map]

/-- Decoding inverts encoding for `MerkleMap`. -/
theorem decode_encode_merkle_map (m : MerkleMap) :
    decode_merkle_map (encode_merkle_map m) = some m := by
  obtain ⟨uid, lid, count, alg, init_hash, hashes⟩ := m
  cases alg <;> cases init_hash <;>
    simp [decode_merkle_map, encode_merkle_map, dec_req_field, dec_opt_field,
      cbor_lookup, as_uint, as_text, as_bytes, opt_entry, decode_list,
      decode_each_of as_bytes Cbor.bytes (fun _ => rfl)]

/-- C3 (amended): decoding the CBOR encoding of any `BmffHash` yields the
value with its `url` dropped (that field is never serialized) and the three
non-serialized fields (`path`, `bmff_version`, `merkle_uuid_boxes`) reset to
their defaults; in particular `decode(encode(x)) == x` whenever `url` is
absent and those transient fields already hold their defaults. -/
theorem c3_roundtrip_normalizes (x : BmffHash) :
    decode_bmff_hash (encode_bmff_hash x) = some x.normalize := by
  obtain ⟨exclusions, alg, hash, merkle, name, url, path, ver, boxes⟩ := x
  cases alg <;> cases hash <;> cases merkle <;> cases name <;>
    simp [decode_bmff_hash, encode_bmff_hash, BmffHash.normalize,
      dec_req_field, dec_opt_field, cbor_lookup, as_text, as_bytes, opt_entry,
      decode_list,
      decode_each_of decode_exclusions_map encode_exclusions_map
        decode_encode_exclusions_map,
      decode_each_of decode_merkle_map encode_merkle_map
        decode_encode_merkle_map]

/-- C3 (counterexample): for a `BmffHash` whose `url` field is present the
round trip is not the identity — `url` carries `serde(skip_serializing)` and
is lost by encoding, so the claim fails for url-present values. -/
theorem c3_url_not_roundtripped :
    decode_bmff_hash (encode_bmff_hash
      ⟨[], none, none, none, none, some "http://remote", "", 0, none⟩) ≠
    some ⟨[], none, none, none, none, some "http://remote", "", 0, none⟩ := by
  decide

/-- Reading an element splits a drop into a cons. -/
theorem drop_cons_of_getElem {α : Type} (P : List α) (i : Nat) (p : α)
    (h : P[i]? = some p) : P.drop i = p :: P.drop (i + 1) := by
  have hi : i < P.length := (List.getElem?_eq_some_iff.mp h).1
  rw [List.drop_eq_getElem_cons hi]
  have hp : P[i] = p := by
    have hg := List.getElem?_eq_getElem hi
    rw [h] at hg
    exact (Option.some_injective _ hg).symm
  rw [hp]

/-- A read past the end means nothing is left to drop. -/
theorem drop_nil_of_getElem_none {α : Type} (P : List α) (i : Nat)
    (h : P[i]? = none) : P.drop i = [] :=
  List.drop_eq_nil_of_le (List.getElem?_eq_none_iff.mp h)

/-- Enough fuel makes the fuel-driven layout worker agree with
`to_layout`. -/
theorem to_layout_fuel_eq : ∀ n f, n ≤ f → to_layout_fuel f n = to_layout n := by
  intro n
  induction n using Nat.strong_induction_on with
  | _ n ih =>
    intro f hf
    by_cases hn : n ≤ 1
    · have hl : to_layout n = [n] := by
        interval_cases n <;> rfl
      cases f with
      | zero =>
        have h0 : n = 0 := by omega
        subst h0
        rfl
      | succ g => simp [to_layout_fuel, hn, hl]
    · cases f with
      | zero => omega
      | succ g =>
        have hm : (n + 1) / 2 < n := by omega
        have hr : to_layout n = n :: to_layout_fuel (n - 1) ((n + 1) / 2) := by
          have h1 : to_layout n = to_layout_fuel n n := rfl
          rw [h1]
          obtain ⟨m, rfl⟩ : ∃ m, n = m + 1 := ⟨n - 1, by omega⟩
          simp [to_layout_fuel, hn]
        rw [hr]
        simp only [to_layout_fuel, if_neg hn]
        rw [ih _ hm _ (by omega), ih _ hm _ (by omega)]

/-- One-step unfolding of the layer-size layout. -/
theorem to_layout_unfold (n : Nat) :
    to_layout n = if n ≤ 1 then [n] else n :: to_layout ((n + 1) / 2) := by
  by_cases hn : n ≤ 1
  · rw [if_pos hn]
    interval_cases n <;> rfl
  · rw [if_neg hn]
    have h1 : to_layout n = to_layout_fuel n n := rfl
    rw [h1]
    obtain ⟨m, rfl⟩ : ∃ m, n = m + 1 := ⟨n - 1, by omega⟩
    simp only [to_layout_fuel, if_neg hn]
    rw [to_layout_fuel_eq _ _ (by omega)]

/-- For an in-range starting index, the playback loop of
`check_merkle_tree` computes exactly the leftover-lenient specification
walk: the `index - 1 < layer` guard of the odd branch always holds, each
sibling layer consumes one proof entry, a lone trailing node consumes none,
and running out of proof entries fails. -/
theorem check_loop_eq_walk (digest : String → Bytes → Bytes) (alg : String)
    (stored : List Bytes) :
    ∀ n index hash P i, index < n →
      (match check_merkle_loop digest alg stored.length P (to_layout n) index hash i with
       | some (j, hh) => stored_row_check stored j hh
       | none => false)
      = merkle_walk digest alg stored false (to_layout n) index hash (P.drop i) := by
  intro n
  induction n using Nat.strong_induction_on with
  | _ n ih =>
    intro index hash P i hidx
    by_cases hn : n ≤ 1
    · have hn1 : n = 1 := by omega
      subst hn1
      have h0 : index = 0 := by omega
      subst h0
      rw [to_layout_unfold]
      by_cases hs : (1 : Nat) = stored.length
      · simp [check_merkle_loop, merkle_walk, hs]
      · simp [check_merkle_loop, merkle_walk, hs]
    · rw [to_layout_unfold, if_neg hn]
      by_cases hs : n = stored.length
      · simp [check_merkle_loop, merkle_walk, hs]
      · by_cases hodd : index % 2 = 1
        · have hguard : index - 1 < n := by omega
          cases hP : P[i]? with
          | some p =>
            rw [drop_cons_of_getElem P i p hP]
            simp only [check_merkle_loop, merkle_walk, if_neg hs, if_pos hodd,
              if_pos hguard, hP]
            exact ih _ (by omega) (index / 2) _ P (i + 1) (by omega)
          | none =>
            rw [drop_nil_of_getElem_none P i hP]
            simp [check_merkle_loop, merkle_walk, hs, hodd, hguard, hP]
        · by_cases heven : index + 1 < n
          · cases hP : P[i]? with
            | some p =>
              rw [drop_cons_of_getElem P i p hP]
              simp only [check_merkle_loop, merkle_walk, if_neg hs, if_neg hodd,
                if_pos heven, hP]
              exact ih _ (by omega) (index / 2) _ P (i + 1) (by omega)
            | none =>
              rw [drop_nil_of_getElem_none P i hP]
              simp [check_merkle_loop, merkle_walk, hs, hodd, heven, hP]
          · simp only [check_merkle_loop, merkle_walk, if_neg hs, if_neg hodd,
              if_neg heven]
            exact ih _ (by omega) (index / 2) _ P i (by omega)

/-- C1 (amended): for every `MerkleMap`, algorithm, starting leaf hash and
in-range location (`location < count`), `check_merkle_tree` with a proof
vector computes exactly the specification walk: one proof entry is consumed
per layer in which the node has a sibling — concatenated on the left when
the index is odd, on the right when it is even with `index + 1 < layer_size`
— a lone trailing node consumes nothing, the index halves each layer, the
walk stops at the layer whose size equals the stored row length and compares
against `stored_row[index]`; a proof that runs out of entries fails, while
entries beyond those consumed are ignored rather than rejected.  Without a
proof vector the leaf hash is compared directly against
`stored_row[location]`. -/
theorem c1_check_merkle_tree_is_lenient_walk (digest : String → Bytes → Bytes)
    (mm : MerkleMap) (alg : String) (hash : Bytes) (location : Nat)
    (proof : List Bytes) (h : location < mm.count) :
    mm.check_merkle_tree digest alg hash location (some proof)
      = merkle_walk digest alg mm.hashes false (to_layout mm.count) location hash proof
    ∧ mm.check_merkle_tree digest alg hash location none
      = stored_row_check mm.hashes location hash := by
  constructor
  · have hw := check_loop_eq_walk digest alg mm.hashes mm.count location hash proof 0 h
    simpa [MerkleMap.check_merkle_tree, MerkleMap.hash_check,
      stored_row_check] using hw
  · rfl

/-- C1 witness: the amended theorem applied at a two-leaf tree, root stored
row, leaf 0, and the exact one-entry proof. -/
theorem c1_check_merkle_tree_is_lenient_walk_witness :
    (0 : Nat) < 2 ∧
    ((MerkleMap.mk 0 0 2 none none [[1, 2]]).check_merkle_tree digest0 "sha256"
        [1] 0 (some [[2]])
      = merkle_walk digest0 "sha256" [[1, 2]] false (to_layout 2) 0 [1] [[2]]) :=
  ⟨by decide,
   (c1_check_merkle_tree_is_lenient_walk digest0 (MerkleMap.mk 0 0 2 none none [[1, 2]])
     "sha256" [1] 0 [[2]] (by decide)).1⟩

/-- C1 counterexample: a proof with an entry beyond those consumed is
accepted by `check_merkle_tree` (the loop never checks that the whole proof
was consumed), while the claim — here the strict walk — requires such an
over-long proof to fail. -/
theorem c1_extra_proof_entries_accepted :
    (MerkleMap.mk 0 0 2 none none [[1, 2]]).check_merkle_tree digest0 "sha256"
        [1] 0 (some [[2], [9]]) = true
    ∧ merkle_walk digest0 "sha256" [[1, 2]] true (to_layout 2) 0 [1] [[2], [9]]
        = false := by
  decide

/-- C9: for every assertion whose `url`, `hash` and `merkle` fields are all
absent, `verify_stream_hash` returns Ok on any asset whose boxes scan
successfully (the oracle model presumes a successful scan): no digest is
ever compared, so the assertion vacuously verifies every well-formed
asset. -/
theorem c9_empty_assertion_verifies (digest : String → Bytes → Bytes)
    (bh : BmffHash) (asset : AssetModel) (alg : Option String)
    (hu : bh.url = none) (hh : bh.hash = none) (hm : bh.merkle = none) :
    bh.verify_stream_hash digest asset alg = .ok () := by
  simp [BmffHash.verify_stream_hash, BmffHash.is_remote_hash, hu, hh, hm]

/-- C9 witness: the vacuous assertion accepts the concrete timed asset. -/
theorem c9_empty_assertion_verifies_witness :
    bh_plain.verify_stream_hash digest0 asset_timed none = .ok () :=
  c9_empty_assertion_verifies digest0 bh_plain asset_timed none rfl rfl rfl

/-- C4 (amended): for every assertion whose `url` field is present,
`verify_stream_hash` and the generation path `hash_from_asset` (the body of
`gen_hash`) refuse local verification with the error
`BadParam "asset hash is remote, not yet supported"`; the result is the
same for every digest oracle and every asset, so no digest over the asset
is computed. -/
theorem c4_remote_url_refused (digest : String → Bytes → Bytes)
    (bh : BmffHash) (asset : AssetModel) (alg : Option String) (u : String)
    (hu : bh.url = some u) :
    bh.verify_stream_hash digest asset alg
        = .err (.BadParam "asset hash is remote, not yet supported")
    ∧ bh.hash_from_asset asset
        = .err (.BadParam "asset hash is remote, not yet supported") := by
  constructor <;>
    simp [BmffHash.verify_stream_hash, BmffHash.hash_from_asset,
      BmffHash.is_remote_hash, hu]

/-- C4 witness: the remote assertion is refused on the concrete asset. -/
theorem c4_remote_url_refused_witness :
    bh_remote.verify_stream_hash digest0 asset_timed none
        = .err (.BadParam "asset hash is remote, not yet supported")
    ∧ bh_remote.hash_from_asset asset_timed
        = .err (.BadParam "asset hash is remote, not yet supported") :=
  c4_remote_url_refused digest0 bh_remote asset_timed none "http://remote" rfl

/-- C4 counterexample: the refusal error is `BadParam`, not the
`RemoteNotSupported` kind the claim names. -/
theorem c4_error_is_badparam_not_remote :
    bh_remote.verify_stream_hash digest0 asset_timed none
        = .err (.BadParam "asset hash is remote, not yet supported")
    ∧ ¬ bh_remote.verify_stream_hash digest0 asset_timed none
        = .err .RemoteNotSupported := by
  decide

/-- C2 (code bug): on a timed-media asset (a `moov` box, no `moof`) whose
recovered C2PA Merkle UUID boxes number fewer than a `MerkleMap.count`,
`verify_stream_hash` panics — `Vec::split_off` is called with an index
beyond the vector length inside `split_bmff_merkle_map` — instead of
returning the `HashMismatch` its own dead `"MerkleMap count incorrect"`
branch was meant to produce. -/
theorem c2_count_mismatch_panics :
    bh_timed.verify_stream_hash digest0 asset_timed none = .panic := by
  decide

/-- C6: the digest algorithm used for the file-level hash is the assertion
algorithm when present, falling back to the caller hint only when the
assertion has none, and to `"sha256"` when neither is given.  The file-level
verdict of `verify_stream_hash` (for a hash-only assertion) compares
against the digest computed with exactly `curr_alg_of`; in particular an
assertion without `alg` under hint `"sha384"` selects `"sha384"`, while
`alg = "sha256"` under any hint still selects `"sha256"`. -/
theorem c6_algorithm_precedence (digest : String → Bytes → Bytes)
    (bh : BmffHash) (asset : AssetModel) (hint : Option String) (h : Bytes)
    (hu : bh.url = none) (hh : bh.hash = some h) (hm : bh.merkle = none) :
    (bh.verify_stream_hash digest asset hint = .ok ()
      ↔ asset.hash_by_alg (curr_alg_of bh.alg hint)
          (asset.resolve_exclusions bh.exclusions bh.is_v2) = h)
    ∧ (∀ a, curr_alg_of (some a) hint = a)
    ∧ curr_alg_of none (some "sha384") = "sha384"
    ∧ curr_alg_of none none = "sha256" := by
  refine ⟨?_, fun a => rfl, rfl, rfl⟩
  by_cases hc : asset.hash_by_alg (curr_alg_of bh.alg hint)
      (asset.resolve_exclusions bh.exclusions bh.is_v2) = h
  · simp [BmffHash.verify_stream_hash, BmffHash.is_remote_hash, hu, hh, hm,
      verify_stream_by_alg, vec_compare, hc]
  · simp [BmffHash.verify_stream_hash, BmffHash.is_remote_hash, hu, hh, hm,
      verify_stream_by_alg, vec_compare, hc]

/-- C6 witness: the hash-only assertion with `alg = "sha256"` under hint
`"sha384"` on the concrete asset whose digest is `[7]`. -/
theorem c6_algorithm_precedence_witness :
    (bh_filehash.verify_stream_hash digest0 asset_timed (some "sha384") = .ok ()
      ↔ asset_timed.hash_by_alg (curr_alg_of bh_filehash.alg (some "sha384"))
          (asset_timed.resolve_exclusions bh_filehash.exclusions bh_filehash.is_v2) = [7])
    ∧ (∀ a, curr_alg_of (some a) (some "sha384") = a)
    ∧ curr_alg_of none (some "sha384") = "sha384"
    ∧ curr_alg_of none none = "sha256" :=
  c6_algorithm_precedence digest0 bh_filehash asset_timed (some "sha384") [7]
    rfl rfl rfl

/-- When the asset has no `moof` box, the init-segment loop of
`verify_stream_hash` fails with a `HashMismatch` as soon as any `MerkleMap`
carries an `init_hash` (or earlier, if an algorithm cannot be resolved). -/
theorem check_init_segments_no_moof (bh : BmffHash) (asset : AssetModel)
    (exclusions : List HashRange) :
    ∀ l : List MerkleMap, (∃ mm ∈ l, mm.init_hash.isSome) →
      ∃ msg, check_init_segments bh asset exclusions none l
        = .err (.HashMismatch msg) := by
  intro l
  induction l with
  | nil =>
    rintro ⟨mm, hmem, _⟩
    cases hmem
  | cons mm rest ih =>
    rintro ⟨m, hmem, hsome⟩
    cases halg : (match mm.alg with | some a => some a | none => bh.alg) with
    | none =>
      exact ⟨"no algorithm found", by simp [check_init_segments, halg]⟩
    | some alg =>
      cases hi : mm.init_hash with
      | some v =>
        exact ⟨"BMFF inithash must not be present for non-fragmented media",
          by simp [check_init_segments, halg, hi]⟩
      | none =>
        have hrest : ∃ m ∈ rest, m.init_hash.isSome := by
          rcases List.mem_cons.mp hmem with heq | hmemr
          · subst heq
            rw [hi] at hsome
            simp at hsome
          · exact ⟨m, hmemr, hsome⟩
        obtain ⟨msg, hmsg⟩ := ih hrest
        exact ⟨msg, by simp [check_init_segments, halg, hi, hmsg]⟩

/-- C7: for every assertion with `merkle` present in which some `MerkleMap`
carries an `init_hash`, if the scanned asset has no `moof` box (it is not
fragmented), `verify_stream_hash` returns a `HashMismatch` error rather
than checking the `init_hash`. -/
theorem c7_init_hash_requires_fragmented (digest : String → Bytes → Bytes)
    (bh : BmffHash) (asset : AssetModel) (hint : Option String)
    (mmv : List MerkleMap) (hu : bh.url = none) (hm : bh.merkle = some mmv)
    (hsome : ∃ mm ∈ mmv, mm.init_hash.isSome)
    (hnomoof : ∀ b ∈ asset.box_infos, ¬ b.path = "moof") :
    ∃ msg, bh.verify_stream_hash digest asset hint
      = .err (.HashMismatch msg) := by
  have hfind : asset.box_infos.find? (fun b => b.path == "moof") = none := by
    apply List.find?_eq_none.mpr
    intro b hb
    simpa using hnomoof b hb
  cases hh : bh.hash with
  | some hv =>
    by_cases hcmp : verify_stream_by_alg asset (curr_alg_of bh.alg hint) hv
        (asset.resolve_exclusions bh.exclusions bh.is_v2)
    · obtain ⟨msg, hmsg⟩ := check_init_segments_no_moof bh asset
        (asset.resolve_exclusions bh.exclusions bh.is_v2) mmv hsome
      exact ⟨msg, by
        simp [BmffHash.verify_stream_hash, BmffHash.is_remote_hash, hu, hh,
          hm, hcmp, hfind, hmsg]⟩
    · exact ⟨"BMFF file level hash mismatch", by
        simp [BmffHash.verify_stream_hash, BmffHash.is_remote_hash, hu, hh,
          hm, hcmp]⟩
  | none =>
    obtain ⟨msg, hmsg⟩ := check_init_segments_no_moof bh asset
      (asset.resolve_exclusions bh.exclusions bh.is_v2) mmv hsome
    exact ⟨msg, by
      simp [BmffHash.verify_stream_hash, BmffHash.is_remote_hash, hu, hh, hm,
        hfind, hmsg]⟩

/-- C7 witness: an assertion whose `MerkleMap` carries an `init_hash` fails
with `HashMismatch` on the concrete `moov`-only asset. -/
theorem c7_init_hash_requires_fragmented_witness :
    ∃ msg, bh_initmoof.verify_stream_hash digest0 asset_timed none
      = .err (.HashMismatch msg) :=
  c7_init_hash_requires_fragmented digest0 bh_initmoof asset_timed none
    [⟨1, 0, 1, some "sha256", some [9], [[1]]⟩] rfl rfl (by decide) (by decide)

/-- The init-hash loop of `verify_stream_segment` succeeds exactly when
every `MerkleMap` stores the digest of the init stream minus the
exclusions, and otherwise fails with a `HashMismatch`. -/
theorem segment_init_loop_ok_iff (asset : AssetModel) (curr_alg : String)
    (exclusions : List HashRange) :
    ∀ l : List MerkleMap,
      (segment_init_loop asset curr_alg exclusions l = .ok ()
        ↔ ∀ mm ∈ l, mm.init_hash = some (asset.hash_by_alg curr_alg exclusions))
      ∧ (segment_init_loop asset curr_alg exclusions l = .ok ()
        ∨ ∃ msg, segment_init_loop asset curr_alg exclusions l
            = .err (.HashMismatch msg)) := by
  intro l
  induction l with
  | nil => simp [segment_init_loop]
  | cons mm rest ih =>
    cases hi : mm.init_hash with
    | none =>
      constructor
      · simp [segment_init_loop, hi]
      · exact Or.inr ⟨"fragmented MP4 must have initHash",
          by simp [segment_init_loop, hi]⟩
    | some v =>
      by_cases hv : asset.hash_by_alg curr_alg exclusions = v
      · constructor
        · simp [segment_init_loop, hi, verify_stream_by_alg, vec_compare, hv,
            ih.1]
        · rcases ih.2 with hok | ⟨msg, herr⟩
          · exact Or.inl (by
              simp [segment_init_loop, hi, verify_stream_by_alg, vec_compare,
                hv, hok])
          · exact Or.inr ⟨msg, by
              simp [segment_init_loop, hi, verify_stream_by_alg, vec_compare,
                hv, herr]⟩
      · constructor
        · simp [segment_init_loop, hi, verify_stream_by_alg, vec_compare, hv]
          intro heq
          exact absurd heq.symm hv
        · exact Or.inr ⟨"BMFF inithash mismatch",
            by simp [segment_init_loop, hi, verify_stream_by_alg, vec_compare, hv]⟩

/-- C5: for every assertion with `merkle` present and `hash` absent,
`verify_stream_segment` with no fragment verifies only the init segment: it
returns Ok exactly when every `MerkleMap` carries an `init_hash` equal to
the digest of the init stream minus the resolved exclusions, and fails with
`HashMismatch` when some `MerkleMap` lacks an `init_hash` or stores a
different one; no fragment is consulted. -/
theorem c5_segment_none_checks_init_only (digest : String → Bytes → Bytes)
    (bh : BmffHash) (init : AssetModel) (hint : Option String)
    (mmv : List MerkleMap) (hh : bh.hash = none) (hm : bh.merkle = some mmv) :
    (bh.verify_stream_segment digest init none hint = .ok ()
      ↔ ∀ mm ∈ mmv, mm.init_hash
          = some (init.hash_by_alg (curr_alg_of bh.alg hint)
              (init.resolve_exclusions bh.exclusions bh.is_v2)))
    ∧ ((∃ mm ∈ mmv, ¬ mm.init_hash
          = some (init.hash_by_alg (curr_alg_of bh.alg hint)
              (init.resolve_exclusions bh.exclusions bh.is_v2))) →
        ∃ msg, bh.verify_stream_segment digest init none hint
          = .err (.HashMismatch msg)) := by
  have hloop := segment_init_loop_ok_iff init (curr_alg_of bh.alg hint)
    (init.resolve_exclusions bh.exclusions bh.is_v2) mmv
  rcases hloop.2 with hok | ⟨msg, herr⟩
  · have hv : bh.verify_stream_segment digest init none hint = .ok () := by
      simp [BmffHash.verify_stream_segment, hh, hm, hok]
    refine ⟨iff_of_true hv (hloop.1.mp hok), ?_⟩
    rintro ⟨mm, hmem, hne⟩
    exact absurd (hloop.1.mp hok mm hmem) hne
  · have hv : bh.verify_stream_segment digest init none hint
        = .err (.HashMismatch msg) := by
      simp [BmffHash.verify_stream_segment, hh, hm, herr]
    refine ⟨iff_of_false ?_ ?_, fun _ => ⟨msg, hv⟩⟩
    · rw [hv]
      intro hcon
      exact RResult.noConfusion hcon
    · intro hall
      have hok2 := hloop.1.mpr hall
      rw [herr] at hok2
      exact RResult.noConfusion hok2

/-- C5 witness: the matching single-`MerkleMap` assertion on the concrete
init stream whose digest is `[7]`. -/
theorem c5_segment_none_checks_init_only_witness :
    (bh_init7.verify_stream_segment digest0 asset_timed none none = .ok ()
      ↔ ∀ mm ∈ [(⟨1, 0, 1, none, some [7], [[7]]⟩ : MerkleMap)], mm.init_hash
          = some (asset_timed.hash_by_alg (curr_alg_of bh_init7.alg none)
              (asset_timed.resolve_exclusions bh_init7.exclusions bh_init7.is_v2)))
    ∧ ((∃ mm ∈ [(⟨1, 0, 1, none, some [7], [[7]]⟩ : MerkleMap)], ¬ mm.init_hash
          = some (asset_timed.hash_by_alg (curr_alg_of bh_init7.alg none)
              (asset_timed.resolve_exclusions bh_init7.exclusions bh_init7.is_v2))) →
        ∃ msg, bh_init7.verify_stream_segment digest0 asset_timed none none
          = .err (.HashMismatch msg)) :=
  c5_segment_none_checks_init_only digest0 bh_init7 asset_timed none
    [⟨1, 0, 1, none, some [7], [[7]]⟩] rfl rfl

/-- C10: `update_mpd_hash` mutates only the `init_hash` of the first
`MerkleMap`: on success the assertion equals the old one with exactly
`merkle[0].init_hash` replaced by the freshly computed init digest (so
`exclusions`, `alg`, `hash`, `name`, `url`, every other `MerkleMap` and
every other field of `merkle[0]` are untouched); with no merkle vector it
fails with `BadParam` and with an empty one with `NotFound`, both leaving
the assertion unchanged. -/
theorem c10_update_mpd_hash_frame (asset : AssetModel) (bh : BmffHash) :
    (bh.merkle = none →
      bh.update_mpd_hash asset
        = (.err (.BadParam "expected MPD Merkle object"), bh))
    ∧ (bh.merkle = some [] →
      bh.update_mpd_hash asset = (.err .NotFound, bh))
    ∧ (∀ m0 rest, bh.merkle = some (m0 :: rest) →
      bh.update_mpd_hash asset
        = (.ok (), { bh with merkle := some ({ m0 with init_hash := some (asset.hash_by_alg (m0.alg.getD (bh.alg.getD "sha256")) (asset.resolve_exclusions bh.exclusions bh.is_v2)) } :: rest) })) := by
  refine ⟨fun h => by simp [BmffHash.update_mpd_hash, h],
    fun h => by simp [BmffHash.update_mpd_hash, h],
    fun m0 rest h => ?_⟩
  cases halg : m0.alg with
  | some a => simp [BmffHash.update_mpd_hash, h, halg, Option.getD]
  | none =>
    cases hbh : bh.alg with
    | some a => simp [BmffHash.update_mpd_hash, h, halg, hbh, Option.getD]
    | none => simp [BmffHash.update_mpd_hash, h, halg, hbh, Option.getD]

/-- C10 witness: the three cases at concrete assertions — no merkle, empty
merkle, and a one-entry merkle whose recomputed init hash equals the stored
one (so the updated assertion is the old one). -/
theorem c10_update_mpd_hash_frame_witness :
    bh_plain.update_mpd_hash asset_timed
        = (.err (.BadParam "expected MPD Merkle object"), bh_plain)
    ∧ bh_empty_merkle.update_mpd_hash asset_timed = (.err .NotFound, bh_empty_merkle)
    ∧ bh_init7.update_mpd_hash asset_timed = (.ok (), bh_init7) :=
  ⟨(c10_update_mpd_hash_frame asset_timed bh_plain).1 rfl,
   (c10_update_mpd_hash_frame asset_timed bh_empty_merkle).2.1 rfl,
   (c10_update_mpd_hash_frame asset_timed bh_init7).2.2
     ⟨1, 0, 1, none, some [7], [[7]]⟩ [] rfl⟩

/-- One pairing step halves the layer size, rounding up. -/
theorem next_layer_length (d : String → Bytes → Bytes) (a : String) :
    ∀ l : List Bytes, (next_layer d a l).length = (l.length + 1) / 2
  | [] => by simp [next_layer]
  | [x] => by simp [next_layer]
  | x :: y :: rest => by
    simp [next_layer, next_layer_length d a rest]
    omega

/-- The layer builder never returns an empty list of layers. -/
theorem build_layers_fuel_ne_nil (d : String → Bytes → Bytes) (a : String)
    (f : Nat) (l : List Bytes) : build_layers_fuel d a f l ≠ [] := by
  cases f with
  | zero => simp [build_layers_fuel]
  | succ g =>
    simp only [build_layers_fuel]
    split <;> simp

/-- Enough fuel makes the fuel-driven layer builder agree with
`build_layers`. -/
theorem build_layers_fuel_eq (d : String → Bytes → Bytes) (a : String) :
    ∀ n (l : List Bytes), l.length = n → ∀ f, n ≤ f →
      build_layers_fuel d a f l = build_layers d a l := by
  intro n
  induction n using Nat.strong_induction_on with
  | _ n ih =>
    intro l hl f hf
    by_cases hn : n ≤ 1
    · have hbl : build_layers d a l = [l] := by
        show build_layers_fuel d a l.length l = [l]
        rw [hl]
        interval_cases n
        · rfl
        · simp [build_layers_fuel, hl]
      rw [hbl]
      cases f with
      | zero => rfl
      | succ g => simp [build_layers_fuel, hl, hn]
    · cases f with
      | zero => omega
      | succ g =>
        have hnl : (next_layer d a l).length = (n + 1) / 2 := by
          rw [next_layer_length, hl]
        have hm : (n + 1) / 2 < n := by omega
        have hll : ¬ l.length ≤ 1 := by omega
        have hrhs : build_layers d a l
            = l :: build_layers_fuel d a (n - 1) (next_layer d a l) := by
          show build_layers_fuel d a l.length l = _
          rw [hl]
          obtain ⟨m, rfl⟩ : ∃ m, n = m + 1 := ⟨n - 1, by omega⟩
          simp [build_layers_fuel, hll]
        rw [hrhs]
        have hlhs : build_layers_fuel d a (g + 1) l
            = l :: build_layers_fuel d a g (next_layer d a l) := by
          simp [build_layers_fuel, hll]
        rw [hlhs]
        rw [ih _ hm _ hnl _ (by omega), ih _ hm _ hnl _ (by omega)]

/-- One-step unfolding of the layer builder. -/
theorem build_layers_unfold (d : String → Bytes → Bytes) (a : String)
    (l : List Bytes) :
    build_layers d a l
      = if l.length ≤ 1 then [l]
        else l :: build_layers d a (next_layer d a l) := by
  by_cases hn : l.length ≤ 1
  · rw [if_pos hn]
    show build_layers_fuel d a l.length l = [l]
    rcases l with _ | ⟨x, _ | ⟨y, rest⟩⟩
    · rfl
    · rfl
    · simp at hn
  · rw [if_neg hn]
    show build_layers_fuel d a l.length l = _
    obtain ⟨m, hm⟩ : ∃ m, l.length = m + 1 := ⟨l.length - 1, by omega⟩
    rw [hm]
    simp only [build_layers_fuel, hm, if_neg hn]
    rw [build_layers_fuel_eq d a _ (next_layer d a l) rfl m
      (by rw [next_layer_length]; omega)]
    rw [if_neg (show ¬ m + 1 ≤ 1 by omega)]

/-- Ceil-division collapses across one halving step. -/
theorem ceil_div_step (n k : Nat) (hn : 1 ≤ n) :
    ((n + 1) / 2 + 2 ^ k - 1) / 2 ^ k = (n + 2 ^ (k + 1) - 1) / 2 ^ (k + 1) := by
  have hm : 0 < 2 ^ k := pow_pos (by norm_num) k
  have h2 : (n + 1) / 2 = (n - 1) / 2 + 1 := by omega
  have h3 : 2 ^ (k + 1) = 2 * 2 ^ k := by rw [pow_succ]; ring
  rw [h2, h3]
  have h4 : (n - 1) / 2 + 1 + 2 ^ k - 1 = (n - 1) / 2 + 2 ^ k := by omega
  have h5 : n + 2 * 2 ^ k - 1 = (n - 1) + 2 ^ k * 2 := by omega
  rw [h4, h5]
  rw [← Nat.div_div_eq_div_mul]
  rw [Nat.add_mul_div_right _ _ (by norm_num : (0 : Nat) < 2)]

/-- Each row of the Merkle layer list has the ceil-halved length of the
leaf count at its depth. -/
theorem build_layers_row_length (d : String → Bytes → Bytes) (a : String) :
    ∀ n (l : List Bytes), l.length = n → ∀ k row,
      (build_layers d a l)[k]? = some row →
      row.length = (n + 2 ^ k - 1) / 2 ^ k := by
  intro n
  induction n using Nat.strong_induction_on with
  | _ n ih =>
    intro l hl k row hrow
    rw [build_layers_unfold] at hrow
    by_cases hn : l.length ≤ 1
    · rw [if_pos hn] at hrow
      cases k with
      | zero =>
        have hrl : l = row := by simpa using hrow
        rw [← hrl, hl]
        simp
      | succ k => simp at hrow
    · rw [if_neg hn] at hrow
      cases k with
      | zero =>
        have hrl : l = row := by simpa using hrow
        rw [← hrl, hl]
        simp
      | succ k =>
        simp only [List.getElem?_cons_succ] at hrow
        have hres := ih ((n + 1) / 2) (by omega) (next_layer d a l)
          (by rw [next_layer_length, hl]) k row hrow
        rw [hres]
        exact ceil_div_step n k (by omega)

/-- C8: when the assembly step of `add_merkle_for_mpd` runs with a
supported algorithm over the `N` per-fragment leaf hashes, the assertion
merkle field becomes exactly one `MerkleMap` whose `count` is `N`, whose
`hashes` is the stored Merkle row `layers[min 4 root_layer]` (its length is
`⌈N / 2^row⌉`), and whose `init_hash` is the all-zero byte string of the
digest length — 32, 48 or 64 for sha256, sha384, sha512; any other
algorithm string makes the call fail with `UnsupportedType`. -/
theorem c8_add_merkle_for_mpd_result (digest : String → Bytes → Bytes)
    (bh : BmffHash) (alg : String) (leaves : List Bytes) (local_id : Nat)
    (unique_id : Option Nat) :
    ((alg = "sha256" ∨ alg = "sha384" ∨ alg = "sha512") →
      ∃ row,
        (C2PAMerkleTree.from_leaves digest alg leaves).layers[
            min 4 ((C2PAMerkleTree.from_leaves digest alg leaves).layers.length - 1)]?
          = some row
        ∧ bh.add_merkle_for_mpd digest alg leaves local_id unique_id
            = .ok { bh with merkle := some [⟨unique_id.getD local_id, local_id,
                leaves.length, some alg,
                some (List.replicate
                  (if alg = "sha256" then 32 else if alg = "sha384" then 48 else 64) 0),
                row⟩] }
        ∧ row.length
            = (leaves.length
                + 2 ^ (min 4 ((C2PAMerkleTree.from_leaves digest alg leaves).layers.length - 1)) - 1)
              / 2 ^ (min 4 ((C2PAMerkleTree.from_leaves digest alg leaves).layers.length - 1)))
    ∧ (¬ (alg = "sha256" ∨ alg = "sha384" ∨ alg = "sha512") →
        bh.add_merkle_for_mpd digest alg leaves local_id unique_id
          = .err .UnsupportedType) := by
  have hne : build_layers digest alg leaves ≠ [] :=
    build_layers_fuel_ne_nil digest alg leaves.length leaves
  have hpos : 0 < (build_layers digest alg leaves).length :=
    List.length_pos.mpr hne
  have hlt : min 4 ((build_layers digest alg leaves).length - 1)
      < (build_layers digest alg leaves).length := by omega
  have hsome : (build_layers digest alg leaves)[
      min 4 ((build_layers digest alg leaves).length - 1)]?
      = some ((build_layers digest alg leaves)[
          min 4 ((build_layers digest alg leaves).length - 1)]) :=
    List.getElem?_eq_getElem hlt
  constructor
  · intro halg
    refine ⟨(build_layers digest alg leaves)[
      min 4 ((build_layers digest alg leaves).length - 1)], hsome, ?_, ?_⟩
    · rcases halg with h | h | h <;> subst h <;>
        (cases unique_id <;>
          simp [BmffHash.add_merkle_for_mpd, C2PAMerkleTree.from_leaves,
            hsome, Option.getD])
    · exact build_layers_row_length digest alg leaves.length leaves rfl _ _ hsome
  · intro hnalg
    push_neg at hnalg
    obtain ⟨h1, h2, h3⟩ := hnalg
    simp [BmffHash.add_merkle_for_mpd, C2PAMerkleTree.from_leaves, hsome,
      h1, h2, h3]

/-- C8 witness: the assembly applied to three concrete leaves with sha256
(stored row at depth 2, a 32-byte zero placeholder), and to the unsupported
algorithm string `"md5"`. -/
theorem c8_add_merkle_for_mpd_result_witness :
    (∃ row,
        (C2PAMerkleTree.from_leaves digest0 "sha256" [[1], [2], [3]]).layers[
            min 4 ((C2PAMerkleTree.from_leaves digest0 "sha256" [[1], [2], [3]]).layers.length - 1)]?
          = some row
        ∧ bh_plain.add_merkle_for_mpd digest0 "sha256" [[1], [2], [3]] 1 none
            = .ok { bh_plain with merkle := some [⟨1, 1, 3, some "sha256",
                some (List.replicate 32 0), row⟩] }
        ∧ row.length
            = (3 + 2 ^ (min 4 ((C2PAMerkleTree.from_leaves digest0 "sha256" [[1], [2], [3]]).layers.length - 1)) - 1)
              / 2 ^ (min 4 ((C2PAMerkleTree.from_leaves digest0 "sha256" [[1], [2], [3]]).layers.length - 1)))
    ∧ bh_plain.add_merkle_for_mpd digest0 "md5" [[1], [2], [3]] 1 none
        = .err .UnsupportedType :=
  ⟨(c8_add_merkle_for_mpd_result digest0 bh_plain "sha256" [[1], [2], [3]] 1
      none).1 (Or.inl rfl),
   (c8_add_merkle_for_mpd_result digest0 bh_plain "md5" [[1], [2], [3]] 1
      none).2 (by decide)⟩
